import Mathlib

/-!
Verification of the swiftliners wallet-ledger / escrow core.

Shallow embedding of the source JavaScript:
* wallet ledger primitives from the `Wallet` mongoose model
  (`hasSufficientFunds`, `lockFunds`, `unlockFunds`, `releaseFunds`,
  `deductFunds`, `addFunds`);
* the `Transaction` model's pre-save fee recomputation hook and its
  field-mutating methods;
* the `Escrow` model's state machine (`fund`, `activate`,
  `fulfillCondition`, `requestRelease`, `release`, `refund`, `raiseDispute`);
* the escrow / payout / wallet controllers (`createEscrow`,
  `fulfillCondition`, `releaseEscrow`, `refundEscrow`, `selectPaymentRail`,
  `createPayout`, `transferFunds`, `fundWallet`, `withdrawFromWallet`);
* the webhook service's retry loop (`sendWebhook`).

JavaScript numbers are modelled as rationals (all monetary arithmetic in the
source is addition, subtraction and multiplication by small decimal
constants).  Dates, identifiers and logging have no effect on the balances or
statuses the claims are about and are omitted; a mongoose `save()` that only
persists already-made in-memory mutations is modelled as the identity.
Failures thrown by the wallet methods are modelled with `Except`.
-/

namespace Swiftliners

/-! ## Wallet balances and ledger primitives (Wallet model) -/

/-- The `balances` sub-document of the `Wallet` model:
`{ available, locked, pending }`. -/
structure Balances where
  available : ℚ
  locked : ℚ
  pending : ℚ
deriving Repr, DecidableEq

/-- Errors thrown by the wallet balance methods
(`Insufficient funds` / `Insufficient locked funds` /
`Insufficient available funds`). -/
inductive LedgerError where
  | insufficientFunds
  | insufficientLockedFunds
deriving Repr, DecidableEq

/-- `walletSchema.methods.hasSufficientFunds(amount, includeLocked)`. -/
def hasSufficientFunds (w : Balances) (amount : ℚ) (includeLocked : Bool) : Bool :=
  if includeLocked then
    w.available + w.locked ≥ amount
  else
    w.available ≥ amount

/-- `walletSchema.methods.lockFunds(amount)`: requires
`hasSufficientFunds(amount)`, moves `amount` from available to locked. -/
def lockFunds (w : Balances) (amount : ℚ) : Except LedgerError Balances :=
  if hasSufficientFunds w amount false then
    .ok { w with available := w.available - amount, locked := w.locked + amount }
  else
    .error .insufficientFunds

/-- `walletSchema.methods.unlockFunds(amount)`: requires `locked ≥ amount`,
moves `amount` from locked to available. -/
def unlockFunds (w : Balances) (amount : ℚ) : Except LedgerError Balances :=
  if w.locked < amount then
    .error .insufficientLockedFunds
  else
    .ok { w with locked := w.locked - amount, available := w.available + amount }

/-- `walletSchema.methods.releaseFunds(amount)`: body identical to
`unlockFunds`. -/
def releaseFunds (w : Balances) (amount : ℚ) : Except LedgerError Balances :=
  if w.locked < amount then
    .error .insufficientLockedFunds
  else
    .ok { w with locked := w.locked - amount, available := w.available + amount }

/-- `walletSchema.methods.deductFunds(amount)`: requires `available ≥ amount`,
decreases available. -/
def deductFunds (w : Balances) (amount : ℚ) : Except LedgerError Balances :=
  if w.available < amount then
    .error .insufficientFunds
  else
    .ok { w with available := w.available - amount }

/-- `walletSchema.methods.addFunds(amount)`: increases available,
unconditionally. -/
def addFunds (w : Balances) (amount : ℚ) : Balances :=
  { w with available := w.available + amount }

/-! ## Transaction model (transactionSchema) -/

/-- The `fees` sub-document of the `Transaction` model. -/
structure Fees where
  processing_fee : ℚ
  platform_fee : ℚ
  total_fee : ℚ
deriving Repr, DecidableEq

/-- Transaction statuses (`pending | processing | completed | failed |
cancelled | reversed`). -/
inductive TxnStatus where
  | pending
  | processing
  | completed
  | failed
  | cancelled
  | reversed
deriving Repr, DecidableEq

/-- The monetary and status fields of a `Transaction` document.  Identifiers,
descriptors and timestamps do not feed back into any balance or status
computation and are omitted. -/
structure Txn where
  amount : ℚ
  fees : Fees
  net_amount : ℚ
  status : TxnStatus
  retry_count : ℕ
deriving Repr, DecidableEq

/-- `transactionSchema.pre('save')`: when the `fees` path was modified,
recompute `total_fee = processing_fee + platform_fee` and
`net_amount = amount - total_fee` before persisting. -/
def preSaveHook (t : Txn) (feesModified : Bool) : Txn :=
  if feesModified then
    let total := t.fees.processing_fee + t.fees.platform_fee
    { t with fees := { t.fees with total_fee := total }, net_amount := t.amount - total }
  else
    t

/-- Persisting a newly constructed `Transaction`: mongoose treats every path
of a new document as modified, so the pre-save hook recomputes the totals. -/
def persistNew (t : Txn) : Txn :=
  preSaveHook t true

/-- An in-flight modification of a persisted transaction, as performed by the
source (`fees` assignment, `markCompleted` / `markFailed` / direct status
writes, `scheduleRetry`). -/
inductive TxnChange where
  | setFees (processing platform total : ℚ)
  | setStatus (s : TxnStatus)
  | scheduleRetry
deriving Repr, DecidableEq

/-- Apply a modification to the in-memory document. -/
def applyChange (t : Txn) (c : TxnChange) : Txn :=
  match c with
  | .setFees p f tot => { t with fees := ⟨p, f, tot⟩ }
  | .setStatus s => { t with status := s }
  | .scheduleRetry => { t with retry_count := t.retry_count + 1 }

/-- Whether a modification touches the `fees` path. -/
def touchesFees (c : TxnChange) : Bool :=
  match c with
  | .setFees _ _ _ => true
  | _ => false

/-- Modify then `save()`: the pre-save hook fires with
`isModified('fees')` true exactly when the change wrote the fee
sub-fields. -/
def saveChange (t : Txn) (c : TxnChange) : Txn :=
  preSaveHook (applyChange t c) (touchesFees c)

/-- A transaction as persisted after its initial save and any sequence of
modify-and-save steps. -/
def persistedAfter (t : Txn) (cs : List TxnChange) : Txn :=
  cs.foldl saveChange (persistNew t)

/-- The fee invariant of claim C5. -/
def feeInvariant (t : Txn) : Prop :=
  t.fees.total_fee = t.fees.processing_fee + t.fees.platform_fee ∧
    t.net_amount = t.amount - t.fees.total_fee

instance (t : Txn) : Decidable (feeInvariant t) := by
  unfold feeInvariant; infer_instance

/-! ## Escrow model (escrowSchema) -/

/-- One entry of the escrow's `conditions` array.  (`type`, `description`,
`fulfilled`, `fulfilled_by`; the `fulfilled_at` date and `evidence`
attachments do not influence any transition.) -/
structure Condition where
  ctype : String
  description : String
  fulfilled : Bool
  fulfilled_by : Option String
deriving Repr, DecidableEq

/-- Escrow statuses. -/
inductive EscrowStatus where
  | pending
  | funded
  | active
  | released
  | refunded
  | disputed
  | expired
deriving Repr, DecidableEq

/-- The `release_settings` sub-document.  The `auto_release_date` is kept
only as presence (the source never compares it to the clock in the flows
modelled here; it only feeds `auto_release = !!auto_release_date`). -/
structure ReleaseSettings where
  auto_release : Bool
  auto_release_date_given : Bool
  require_all_conditions : Bool
deriving Repr, DecidableEq

/-- The escrow's `fees` sub-document. -/
structure EscrowFees where
  escrow_fee : ℚ
  processing_fee : ℚ
  total_fee : ℚ
deriving Repr, DecidableEq

/-- The fields of an `Escrow` document that drive its state machine. -/
structure Escrow where
  amount : ℚ
  status : EscrowStatus
  conditions : List Condition
  release_settings : ReleaseSettings
  fees : EscrowFees
deriving Repr, DecidableEq

/-- Error thrown by `escrowSchema.methods.fulfillCondition` when
`conditions.id(conditionId)` finds nothing. -/
inductive EscrowError where
  | conditionNotFound
deriving Repr, DecidableEq

/-- The virtual `allConditionsFulfilled`: vacuously true on an empty list,
otherwise every condition's `fulfilled` flag. -/
def allConditionsFulfilled (e : Escrow) : Bool :=
  e.conditions.all (·.fulfilled)

/-- `escrowSchema.methods.fund()`. -/
def Escrow.fund (e : Escrow) : Escrow :=
  { e with status := .funded }

/-- `escrowSchema.methods.activate()`. -/
def Escrow.activate (e : Escrow) : Escrow :=
  { e with status := .active }

/-- `escrowSchema.methods.release()`: sets status `released` (and a
timestamp).  Note that the model-level `release` moves no funds; the wallet
mutations live in the `releaseEscrow` controller. -/
def Escrow.release (e : Escrow) : Escrow :=
  { e with status := .released }

/-- `escrowSchema.methods.refund(reason)`: sets status `refunded`. -/
def Escrow.refund (e : Escrow) : Escrow :=
  { e with status := .refunded }

/-- `escrowSchema.methods.raiseDispute(...)`: appends a dispute and sets
status `disputed` (the dispute record itself carries no balance data). -/
def Escrow.raiseDispute (e : Escrow) : Escrow :=
  { e with status := .disputed }

/-- `escrowSchema.methods.fulfillCondition(conditionId, fulfilledBy)`:
marks the addressed condition fulfilled; if afterwards all conditions are
fulfilled and `release_settings.auto_release` is set, cascades into
`release()`.  Subdocument addressing by `_id` is modelled as the position in
the `conditions` array. -/
def Escrow.fulfillCondition (e : Escrow) (conditionId : ℕ) (fulfilledBy : String) :
    Except EscrowError Escrow :=
  match e.conditions[conditionId]? with
  | none => .error .conditionNotFound
  | some c =>
    let e1 : Escrow :=
      { e with conditions :=
          e.conditions.set conditionId { c with fulfilled := true, fulfilled_by := some fulfilledBy } }
    if allConditionsFulfilled e1 && e1.release_settings.auto_release then
      .ok e1.release
    else
      .ok e1

/-- `escrowSchema.methods.requestRelease()`: cascades into `release()` when
all conditions are fulfilled or `require_all_conditions` is false; otherwise
only a timestamp is recorded. -/
def Escrow.requestRelease (e : Escrow) : Escrow :=
  if allConditionsFulfilled e || !e.release_settings.require_all_conditions then
    e.release
  else
    e

/-! ## Payment rail selection (payout controller) -/

/-- The result of `selectPaymentRail`. -/
structure RailDecision where
  rail : String
  fee : ℚ
  instant : Bool
deriving Repr, DecidableEq

/-- `selectPaymentRail(destination, amount, currency)` from the payout
controller, with `destination.type` passed as a string.  `0.015` is the
rational `3/200`. -/
def selectPaymentRail (destType : String) (amount : ℚ) (currency : String) : RailDecision :=
  if destType = "wallet" then
    ⟨"internal", 0, true⟩
  else if destType = "mpesa" then
    if amount ≤ 250000 then
      ⟨"mpesa_b2c", amount * (3 / 200), true⟩
    else
      ⟨"mpesa_corporate", 100, false⟩
  else if destType = "bank" then
    if currency = "KES" ∧ amount < 999999 then
      ⟨"pesalink", 50, true⟩
    else
      ⟨"rtgs", 150, false⟩
  else
    ⟨"unknown", 0, false⟩

/-! ## Controller flows

Each flow models one controller handler, after authentication and wallet
lookup (the machine below performs the lookups).  Early validation errors
return with no mutation, matching the source.  A wallet-method throw that the
source would turn into a 500 response is surfaced as `ledgerFailure`. -/

/-- Typed failures of the controller handlers. -/
inductive CtrlError where
  | insufficientFunds
  | escrowNotActive
  | conditionNotFound
  | cannotRefund
  | notAllConditionsFulfilled
  | invalidDestinationType
  | insufficientBalance
  | ledgerFailure (e : LedgerError)
deriving Repr, DecidableEq

/-- Input shape of one requested escrow condition (`{type, description}`). -/
structure CondInput where
  ctype : String
  description : String
deriving Repr, DecidableEq

/-- `createEscrow` (escrow controller): checks the payer's available funds,
computes `escrow_fee = 2%` of the amount, records the `escrow_hold`
transaction, locks the amount on the payer wallet, creates the escrow with
`release_settings = { auto_release: !!auto_release_date,
require_all_conditions: true }`, marks the transaction completed, then
`fund()`s and `activate()`s the escrow. -/
def createEscrowFlow (payerW : Balances) (amount : ℚ) (conds : List CondInput)
    (autoReleaseDateGiven : Bool) : Except CtrlError (Balances × Escrow × Txn) :=
  if !hasSufficientFunds payerW amount false then
    .error .insufficientFunds
  else
    let escrow_fee := amount * (2 / 100)
    let processing_fee : ℚ := 0
    let total_fee := escrow_fee + processing_fee
    let txn : Txn := persistNew
      { amount := amount
        fees := ⟨processing_fee, escrow_fee, total_fee⟩
        net_amount := amount - total_fee
        status := .pending
        retry_count := 0 }
    match lockFunds payerW amount with
    | .error e => .error (.ledgerFailure e)
    | .ok payerW =>
      let escrow : Escrow :=
        { amount := amount
          status := .pending
          conditions := conds.map fun c => ⟨c.ctype, c.description, false, none⟩
          release_settings :=
            { auto_release := autoReleaseDateGiven
              auto_release_date_given := autoReleaseDateGiven
              require_all_conditions := true }
          fees := ⟨escrow_fee, processing_fee, total_fee⟩ }
      let txn := saveChange txn (.setStatus .completed)
      let escrow := escrow.fund.activate
      .ok (payerW, escrow, txn)

/-- `fulfillCondition` (escrow controller): requires the escrow to be
`active`, then delegates to the model's `fulfillCondition` (which may cascade
into the model-level `release()`).  No wallet is touched on this path. -/
def fulfillConditionFlow (esc : Escrow) (conditionId : ℕ) (fulfilledBy : String) :
    Except CtrlError Escrow :=
  if esc.status ≠ .active then
    .error .escrowNotActive
  else
    (esc.fulfillCondition conditionId fulfilledBy).mapError fun _ => .conditionNotFound

/-- `releaseEscrow` (escrow controller): requires status `active` and (when
`require_all_conditions`) all conditions fulfilled; sets the escrow
`released`; then `unlockFunds(amount)` and `deductFunds(amount)` on the payer
and `addFunds(net_amount_of_the_hold_transaction)` on the payee; records an
`escrow_release` transaction whose `fees: escrow.fees` assignment drops
`escrow_fee` (not a transaction-schema path) and leaves `platform_fee` at its
default `0`, so the pre-save hook recomputes its totals from
`processing_fee + 0`. -/
def releaseEscrowFlow (esc : Escrow) (payerW payeeW : Balances) (holdTxn : Txn) :
    Except CtrlError (Escrow × Balances × Balances × Txn) :=
  if esc.status ≠ .active then
    .error .escrowNotActive
  else if !allConditionsFulfilled esc && esc.release_settings.require_all_conditions then
    .error .notAllConditionsFulfilled
  else
    let esc := esc.release
    match unlockFunds payerW esc.amount with
    | .error e => .error (.ledgerFailure e)
    | .ok payerW =>
      match deductFunds payerW esc.amount with
      | .error e => .error (.ledgerFailure e)
      | .ok payerW =>
        let payeeW := addFunds payeeW holdTxn.net_amount
        let relTxn : Txn := persistNew
          { amount := esc.amount
            fees := ⟨esc.fees.processing_fee, 0, esc.fees.total_fee⟩
            net_amount := holdTxn.net_amount
            status := .completed
            retry_count := 0 }
        .ok (esc, payerW, payeeW, relTxn)

/-- `refundEscrow` (escrow controller): requires status `active` or
`disputed`; sets the escrow `refunded`; then `unlockFunds(amount)` followed by
`addFunds(transaction.amount)` on the payer wallet, and records a `refund`
transaction with zero fees. -/
def refundEscrowFlow (esc : Escrow) (payerW : Balances) (holdTxn : Txn) :
    Except CtrlError (Escrow × Balances × Txn) :=
  if !(esc.status = .active || esc.status = .disputed) then
    .error .cannotRefund
  else
    let esc := esc.refund
    match unlockFunds payerW esc.amount with
    | .error e => .error (.ledgerFailure e)
    | .ok payerW =>
      let payerW := addFunds payerW holdTxn.amount
      let refTxn : Txn := persistNew
        { amount := esc.amount
          fees := ⟨0, 0, 0⟩
          net_amount := esc.amount
          status := .completed
          retry_count := 0 }
      .ok (esc, payerW, refTxn)

/-- Outcome of `createPayout`.  `rejected` is an early validation failure
with no wallet mutation; `providerFailed` is the compensating-credit path
(error surfaced to the caller after the wallet was restored and the
transaction marked failed). -/
inductive PayoutResult where
  | rejected (e : CtrlError)
  | providerFailed (w : Balances) (t : Txn)
  | ok (w : Balances) (t : Txn)
deriving Repr, DecidableEq

/-- `createPayout` (payout controller): validates the destination type,
consults `selectPaymentRail`, requires `available ≥ amount + fee`, records a
pending `payout` transaction, `deductFunds(amount + fee)`, then calls the
provider; on provider failure marks the transaction `failed` and credits the
full deducted amount back (`addFunds(totalAmount)`) before surfacing the
error.  The provider collaborator is passed in as its result. -/
def createPayoutFlow (w : Balances) (destType : String) (amount : ℚ) (currency : String)
    (provider : Except String TxnStatus) : PayoutResult :=
  if !(destType = "mpesa" || destType = "bank" || destType = "wallet") then
    .rejected .invalidDestinationType
  else
    let routing := selectPaymentRail destType amount currency
    let fees := routing.fee
    let netAmount := amount - fees
    let totalAmount := amount + fees
    if !hasSufficientFunds w totalAmount false then
      .rejected .insufficientBalance
    else
      let txn : Txn := persistNew
        { amount := totalAmount
          fees := ⟨fees, 0, fees⟩
          net_amount := netAmount
          status := .pending
          retry_count := 0 }
      match deductFunds w totalAmount with
      | .error e => .rejected (.ledgerFailure e)
      | .ok w =>
        match provider with
        | .error _ =>
          let txn := saveChange txn (.setStatus .failed)
          let w := addFunds w totalAmount
          .providerFailed w txn
        | .ok payoutStatus =>
          let txn := saveChange txn (.setStatus payoutStatus)
          .ok w txn

/-- `transferFunds` (wallets controller): requires the source to have
`available ≥ amount` (note: only `amount`, not `amount + fee`), computes the
0.5% internal-transfer fee, records a completed `wallet_transfer`
transaction, then `deductFunds(amount + fee)` on the source and
`addFunds(amount)` on the recipient.  `0.005` is the rational `1/200`. -/
def transferFundsFlow (src dst : Balances) (amount : ℚ) :
    Except CtrlError (Balances × Balances × Txn) :=
  if !hasSufficientFunds src amount false then
    .error .insufficientBalance
  else
    let transfer_fee := amount * (1 / 200)
    let total_amount := amount + transfer_fee
    let net_amount := amount
    let txn : Txn := persistNew
      { amount := total_amount
        fees := ⟨0, transfer_fee, transfer_fee⟩
        net_amount := net_amount
        status := .completed
        retry_count := 0 }
    match deductFunds src total_amount with
    | .error e => .error (.ledgerFailure e)
    | .ok src => .ok (src, addFunds dst net_amount, txn)

/-- `fundWallet` (wallets controller): computes the 1.5% funding fee, records
a pending `wallet_funding` transaction, calls the payment provider; when the
provider reports `completed`, credits `addFunds(net_amount)` (the requested
amount); when it reports anything else the transaction stays `processing`;
a provider throw marks the transaction `failed` with no wallet mutation. -/
def fundWalletFlow (w : Balances) (amount : ℚ) (provider : Except String Bool) :
    Balances × Txn :=
  let processing_fee := amount * (3 / 200)
  let total_fee := processing_fee + 0
  let total_amount := amount + total_fee
  let net_amount := amount
  let txn : Txn := persistNew
    { amount := total_amount
      fees := ⟨processing_fee, 0, total_fee⟩
      net_amount := net_amount
      status := .pending
      retry_count := 0 }
  match provider with
  | .ok true => (addFunds w net_amount, saveChange txn (.setStatus .completed))
  | .ok false => (w, saveChange txn (.setStatus .processing))
  | .error _ => (w, saveChange txn (.setStatus .failed))

/-- `withdrawFromWallet` (wallets controller): requires
`available ≥ amount`, computes the 1.5% fee, records a pending
`wallet_withdrawal` transaction, then `deductFunds(amount + fee)` (the
optimistic debit) and marks the transaction `processing`. -/
def withdrawFlow (w : Balances) (amount : ℚ) : Except CtrlError (Balances × Txn) :=
  if !hasSufficientFunds w amount false then
    .error .insufficientBalance
  else
    let processing_fee := amount * (3 / 200)
    let total_fee := processing_fee + 0
    let total_amount := amount + total_fee
    let txn : Txn := persistNew
      { amount := total_amount
        fees := ⟨processing_fee, 0, total_fee⟩
        net_amount := amount
        status := .pending
        retry_count := 0 }
    match deductFunds w total_amount with
    | .error e => .error (.ledgerFailure e)
    | .ok w => .ok (w, saveChange txn (.setStatus .processing))

/-! ## Operation sequences over a set of wallets

A small-step machine over the flows above: wallets addressed by position,
escrows accumulated as they are created.  A step returns `none` when the
source would reject the request (or throw) without the mutations the step
models; sequences are run only through succeeding steps.  Self-transfers and
self-escrows are outside the model (the source would operate on two stale
in-memory copies of one document there). -/

/-- An escrow document together with the wallet positions of its parties and
its persisted `escrow_hold` transaction (whose `net_amount` the release path
credits and whose `amount` the refund path credits). -/
structure EscrowRec where
  payerIdx : ℕ
  payeeIdx : ℕ
  esc : Escrow
  holdTxn : Txn
deriving Repr, DecidableEq

/-- The mutable state the claims quantify over: the wallets and the escrows. -/
structure SysState where
  wallets : List Balances
  escrows : List EscrowRec
deriving Repr, DecidableEq

/-- One externally triggered operation. -/
inductive Op where
  | lock (i : ℕ) (a : ℚ)
  | unlock (i : ℕ) (a : ℚ)
  | releaseF (i : ℕ) (a : ℚ)
  | deduct (i : ℕ) (a : ℚ)
  | add (i : ℕ) (a : ℚ)
  | transfer (src dst : ℕ) (a : ℚ)
  | fund (i : ℕ) (a : ℚ) (provider : Except String Bool)
  | withdraw (i : ℕ) (a : ℚ)
  | payout (i : ℕ) (destType : String) (a : ℚ) (currency : String)
      (provider : Except String TxnStatus)
  | escrowCreate (payer payee : ℕ) (a : ℚ) (conds : List CondInput) (autoDate : Bool)
  | escrowFulfill (e c : ℕ) (fulfilledBy : String)
  | escrowRelease (e : ℕ)
  | escrowRefund (e : ℕ)
deriving Repr

/-- Every amount mentioned by the operation is non-negative. -/
def Op.amountsNonneg : Op → Prop
  | .lock _ a => 0 ≤ a
  | .unlock _ a => 0 ≤ a
  | .releaseF _ a => 0 ≤ a
  | .deduct _ a => 0 ≤ a
  | .add _ a => 0 ≤ a
  | .transfer _ _ a => 0 ≤ a
  | .fund _ a _ => 0 ≤ a
  | .withdraw _ a => 0 ≤ a
  | .payout _ _ a _ _ => 0 ≤ a
  | .escrowCreate _ _ a _ _ => 0 ≤ a
  | .escrowFulfill _ _ _ => True
  | .escrowRelease _ => True
  | .escrowRefund _ => True

instance (op : Op) : Decidable op.amountsNonneg := by
  unfold Op.amountsNonneg; cases op <;> infer_instance

/-- Execute one operation. -/
def stepOp (s : SysState) (op : Op) : Option SysState :=
  match op with
  | .lock i a => do
    let w ← s.wallets[i]?
    let w ← (lockFunds w a).toOption
    some { s with wallets := s.wallets.set i w }
  | .unlock i a => do
    let w ← s.wallets[i]?
    let w ← (unlockFunds w a).toOption
    some { s with wallets := s.wallets.set i w }
  | .releaseF i a => do
    let w ← s.wallets[i]?
    let w ← (releaseFunds w a).toOption
    some { s with wallets := s.wallets.set i w }
  | .deduct i a => do
    let w ← s.wallets[i]?
    let w ← (deductFunds w a).toOption
    some { s with wallets := s.wallets.set i w }
  | .add i a => do
    let w ← s.wallets[i]?
    some { s with wallets := s.wallets.set i (addFunds w a) }
  | .transfer src dst a => do
    if src = dst then none else do
    let sw ← s.wallets[src]?
    let dw ← s.wallets[dst]?
    let (sw, dw, _) ← (transferFundsFlow sw dw a).toOption
    some { s with wallets := (s.wallets.set src sw).set dst dw }
  | .fund i a provider => do
    let w ← s.wallets[i]?
    some { s with wallets := s.wallets.set i (fundWalletFlow w a provider).1 }
  | .withdraw i a => do
    let w ← s.wallets[i]?
    let (w, _) ← (withdrawFlow w a).toOption
    some { s with wallets := s.wallets.set i w }
  | .payout i destType a currency provider => do
    let w ← s.wallets[i]?
    match createPayoutFlow w destType a currency provider with
    | .rejected _ => none
    | .providerFailed w _ => some { s with wallets := s.wallets.set i w }
    | .ok w _ => some { s with wallets := s.wallets.set i w }
  | .escrowCreate payer payee a conds autoDate => do
    if payer = payee then none else do
    let pw ← s.wallets[payer]?
    let _ ← s.wallets[payee]?
    let (pw, esc, txn) ← (createEscrowFlow pw a conds autoDate).toOption
    some { wallets := s.wallets.set payer pw
           escrows := s.escrows ++ [⟨payer, payee, esc, txn⟩] }
  | .escrowFulfill e c fulfilledBy => do
    let er ← s.escrows[e]?
    let esc ← (fulfillConditionFlow er.esc c fulfilledBy).toOption
    some { s with escrows := s.escrows.set e { er with esc := esc } }
  | .escrowRelease e => do
    let er ← s.escrows[e]?
    if er.payerIdx = er.payeeIdx then none else do
    let pw ← s.wallets[er.payerIdx]?
    let yw ← s.wallets[er.payeeIdx]?
    let (esc, pw, yw, _) ← (releaseEscrowFlow er.esc pw yw er.holdTxn).toOption
    some { wallets := (s.wallets.set er.payerIdx pw).set er.payeeIdx yw
           escrows := s.escrows.set e { er with esc := esc } }
  | .escrowRefund e => do
    let er ← s.escrows[e]?
    let pw ← s.wallets[er.payerIdx]?
    let (esc, pw, _) ← (refundEscrowFlow er.esc pw er.holdTxn).toOption
    some { wallets := s.wallets.set er.payerIdx pw
           escrows := s.escrows.set e { er with esc := esc } }

/-- Run a list of operations; fails if any step fails. -/
def runOps (s : SysState) : List Op → Option SysState
  | [] => some s
  | op :: rest =>
    match stepOp s op with
    | some s2 => runOps s2 rest
    | none => none

/-- Sum of `available + locked + pending` over all wallets. -/
def totalBalance (s : SysState) : ℚ :=
  (s.wallets.map fun w => w.available + w.locked + w.pending).sum

/-! ## Webhook retry loop (webhookService.sendWebhook) -/

/-- `this.maxRetries`. -/
def webhookMaxRetries : ℕ := 3

/-- `this.retryDelays` (milliseconds). -/
def webhookRetryDelays : List ℕ := [5000, 15000, 45000]

/-- What `sendWebhook` reports: for a delivery, `success = true` and
`attempts` is the 1-based attempt that succeeded; for exhaustion,
`success = false` and `attempts` is `totalAttempts`.  `waits` lists the
backoff delays actually slept, in order. -/
structure WebhookResult where
  success : Bool
  attempts : ℕ
  waits : List ℕ
deriving Repr, DecidableEq

/-- The `while (attempt < this.maxRetries)` loop of `sendWebhook`.
`outcome n` tells whether the HTTP post of 0-based attempt `n` succeeds.
The loop body runs at most `maxRetries` times, so structural fuel of
`maxRetries + 1` is exact: the fuel-exhausted case coincides with the
loop-guard exit and is never reached. -/
def sendWebhookLoop (outcome : ℕ → Bool) : ℕ → ℕ → List ℕ → WebhookResult
  | 0, attempt, waits => ⟨false, attempt, waits⟩
  | fuel + 1, attempt, waits =>
    if attempt < webhookMaxRetries then
      if outcome attempt then
        ⟨true, attempt + 1, waits⟩
      else
        let attempt2 := attempt + 1
        if attempt2 < webhookMaxRetries then
          sendWebhookLoop outcome fuel attempt2
            (waits ++ [webhookRetryDelays.getD (attempt2 - 1) 0])
        else
          sendWebhookLoop outcome fuel attempt2 waits
    else
      ⟨false, attempt, waits⟩

/-- `webhookService.sendWebhook(url, payload)`, abstracted over the delivery
outcomes of the individual attempts. -/
def sendWebhook (outcome : ℕ → Bool) : WebhookResult :=
  sendWebhookLoop outcome (webhookMaxRetries + 1) 0 []

/-! ## Invariants and concrete scenarios -/

/-- All three balance fields of one wallet are non-negative. -/
def BalNonneg (w : Balances) : Prop :=
  0 ≤ w.available ∧ 0 ≤ w.locked ∧ 0 ≤ w.pending

instance (w : Balances) : Decidable (BalNonneg w) := by
  unfold BalNonneg; infer_instance

/-- Every wallet of the state has non-negative balances. -/
def walletsNonneg (s : SysState) : Prop :=
  ∀ w ∈ s.wallets, BalNonneg w

instance (s : SysState) : Decidable (walletsNonneg s) := by
  unfold walletsNonneg; infer_instance

/-- Consistency of one stored escrow record with the way `createEscrow`
builds it: a non-negative amount, and a hold transaction whose `amount` is
the escrow amount and whose `net_amount` is the amount minus the 2% escrow
fee. -/
def escrowRecConsistent (er : EscrowRec) : Prop :=
  0 ≤ er.esc.amount ∧ er.holdTxn.amount = er.esc.amount ∧
    er.holdTxn.net_amount = er.esc.amount - er.esc.amount * (2 / 100)

instance (er : EscrowRec) : Decidable (escrowRecConsistent er) := by
  unfold escrowRecConsistent; infer_instance

/-- Every stored escrow record is consistent. -/
def escrowRecsConsistent (s : SysState) : Prop :=
  ∀ er ∈ s.escrows, escrowRecConsistent er

instance (s : SysState) : Decidable (escrowRecsConsistent s) := by
  unfold escrowRecsConsistent; infer_instance

/-- Every stored escrow has `release_settings.require_all_conditions`. -/
def escrowsRequireAll (s : SysState) : Prop :=
  ∀ er ∈ s.escrows, er.esc.release_settings.require_all_conditions = true

instance (s : SysState) : Decidable (escrowsRequireAll s) := by
  unfold escrowsRequireAll; infer_instance

/-- The starting state of the spec's escrow lifecycle scenario: payer wallet
A with 15,000 available, payee wallet B with 0. -/
def escrowScenarioStart : SysState :=
  ⟨[⟨15000, 0, 0⟩, ⟨0, 0, 0⟩], []⟩

/-- Create an escrow of 10,000 KES from A to B with a single condition and an
auto-release date (so `auto_release = true`). -/
def escrowScenarioCreate : Op :=
  .escrowCreate 0 1 10000 [⟨"delivery", "goods delivered"⟩] true

/-- The payee fulfills the single condition. -/
def escrowScenarioFulfill : Op :=
  .escrowFulfill 0 0 "payee"

/-- The payer refunds the escrow. -/
def escrowScenarioRefund : Op :=
  .escrowRefund 0

/-- Observation of a payout outcome on the compensating-credit path: the
restored source wallet and the transaction status, defined only when the
provider call failed after the debit. -/
def payoutFailureReport : PayoutResult → Option (Balances × TxnStatus)
  | .providerFailed w t => some (w, t.status)
  | _ => none

/-! ## Theorems -/

/-- Claim C1 (code bug): in the escrow lifecycle scenario the creation step
behaves as specified (A.available = 5,000, A.locked = 10,000), and fulfilling
the single condition with `auto_release = true` does set the escrow status to
`released` — but no funds move: B.available stays 0 (not the claimed 9,800)
and A.locked stays 10,000 (not the claimed 0), because the model-level
`release()` that the auto-release cascade calls only flips the status, while
the wallet mutations live exclusively in the `releaseEscrow` controller. A
subsequent `releaseEscrow` call is then rejected (status is no longer
`active`), so the locked funds are stranded. -/
theorem escrow_auto_release_moves_no_funds :
    (runOps escrowScenarioStart [escrowScenarioCreate]).map SysState.wallets =
      some [⟨5000, 10000, 0⟩, ⟨0, 0, 0⟩] ∧
    (runOps escrowScenarioStart [escrowScenarioCreate, escrowScenarioFulfill]).map
        (fun s => (s.wallets, s.escrows.map fun er => er.esc.status)) =
      some ([⟨5000, 10000, 0⟩, ⟨0, 0, 0⟩], [.released]) ∧
    runOps escrowScenarioStart
        [escrowScenarioCreate, escrowScenarioFulfill, .escrowRelease 0] = none := by
  refine ⟨?_, ?_, ?_⟩ <;>
  · norm_num +decide [runOps, stepOp, escrowScenarioStart, escrowScenarioCreate,
      escrowScenarioFulfill, createEscrowFlow, fulfillConditionFlow, Escrow.fulfillCondition,
      allConditionsFulfilled, Escrow.release, releaseEscrowFlow, lockFunds, unlockFunds,
      deductFunds, addFunds, hasSufficientFunds, persistNew, preSaveHook, saveChange,
      applyChange, touchesFees, Escrow.fund, Escrow.activate, Except.mapError, Except.map,
      Except.toOption, Option.bind, List.set]

/-- Claim C2 (code bug): in the refund scenario the escrow does end
`refunded` with A.locked = 0, but A.available becomes 25,000, not the claimed
15,000: `refundEscrow` first calls `unlockFunds(amount)` (which already moves
the 10,000 back to available) and then additionally calls
`addFunds(transaction.amount)`, crediting the 10,000 a second time. -/
theorem escrow_refund_double_credits_payer :
    (runOps escrowScenarioStart [escrowScenarioCreate, escrowScenarioRefund]).map
        (fun s => (s.wallets, s.escrows.map fun er => er.esc.status)) =
      some ([⟨25000, 0, 0⟩, ⟨0, 0, 0⟩], [.refunded]) ∧
    (25000 : ℚ) = 15000 + 10000 := by
  constructor
  · norm_num +decide [runOps, stepOp, escrowScenarioStart, escrowScenarioCreate,
      escrowScenarioRefund, createEscrowFlow, refundEscrowFlow, Escrow.refund, lockFunds,
      unlockFunds, addFunds, hasSufficientFunds, persistNew, preSaveHook, saveChange,
      applyChange, touchesFees, Escrow.fund, Escrow.activate, Except.mapError, Except.map,
      Except.toOption, Option.bind, List.set]
  · norm_num

/-- Claim C3 (code bug): conservation of funds fails for the
create-then-refund sequence.  The two wallets start with a combined
`available + locked + pending` of 15,000 and end with 25,000, so no
non-negative amount of collected fees can make the books balance: the refund
path creates 10,000 out of nothing (the double credit of claim C2). -/
theorem conservation_fails_on_refund :
    totalBalance escrowScenarioStart = 15000 ∧
    (runOps escrowScenarioStart [escrowScenarioCreate, escrowScenarioRefund]).map totalBalance =
      some 25000 ∧
    ∀ feesCollected : ℚ, 0 ≤ feesCollected → 15000 < 25000 + feesCollected := by
  refine ⟨by norm_num [totalBalance, escrowScenarioStart], ?_, ?_⟩
  · norm_num +decide [runOps, stepOp, escrowScenarioStart, escrowScenarioCreate,
      escrowScenarioRefund, createEscrowFlow, refundEscrowFlow, Escrow.refund, lockFunds,
      unlockFunds, addFunds, hasSufficientFunds, persistNew, preSaveHook, saveChange,
      applyChange, touchesFees, Escrow.fund, Escrow.activate, Except.mapError, Except.map,
      Except.toOption, Option.bind, List.set, totalBalance]
  · intro fees h
    linarith

/-- Witness for the conservation-failure theorem at `feesCollected = 0`. -/
theorem conservation_fails_on_refund_witness : (15000 : ℚ) < 25000 + 0 :=
  conservation_fails_on_refund.2.2 0 le_rfl

/-- The pre-save recomputation establishes the fee invariant. -/
lemma feeInvariant_persistNew (t : Txn) : feeInvariant (persistNew t) := by
  simp [persistNew, preSaveHook, feeInvariant]

/-- Every modify-and-save step keeps the fee invariant: a fee write triggers
the recomputation, any other write leaves the monetary fields untouched. -/
lemma feeInvariant_saveChange (u : Txn) (c : TxnChange) (h : feeInvariant u) :
    feeInvariant (saveChange u c) := by
  cases c <;> simp_all [saveChange, applyChange, touchesFees, preSaveHook, feeInvariant]

lemma feeInvariant_foldl (cs : List TxnChange) :
    ∀ u : Txn, feeInvariant u → feeInvariant (cs.foldl saveChange u) := by
  induction cs with
  | nil => exact fun u h => h
  | cons c cs ih => exact fun u h => ih _ (feeInvariant_saveChange u c h)

/-- Claim C5: every transaction as persisted — its initial save and any
sequence of modify-and-save steps — satisfies
`fees.total_fee = processing_fee + platform_fee` and
`net_amount = amount - total_fee`; the totals are recomputed by the pre-save
hook exactly when the fee sub-fields changed. -/
theorem transaction_fee_totals_consistent (t : Txn) (cs : List TxnChange) :
    feeInvariant (persistedAfter t cs) :=
  feeInvariant_foldl cs _ (feeInvariant_persistNew t)

/-- Claim C6: `selectPaymentRail` is a pure function of
`(destination.type, amount, currency)` with exactly the documented branches:
internal (fee 0, instant) for wallets; `mpesa_b2c` at 1.5% (instant) up to
250,000 and `mpesa_corporate` at flat 100 (not instant) above;
`pesalink` at flat 50 (instant) for KES bank transfers under 999,999 and
`rtgs` at flat 150 (not instant) otherwise; `unknown` with fee 0 for any
other destination type.  In particular the fee at 250,000 is 3,750 and at
250,001 it is 100. -/
theorem selectPaymentRail_spec :
    (∀ (a : ℚ) (c : String), selectPaymentRail "wallet" a c = ⟨"internal", 0, true⟩) ∧
    (∀ (a : ℚ) (c : String), a ≤ 250000 →
      selectPaymentRail "mpesa" a c = ⟨"mpesa_b2c", a * (3 / 200), true⟩) ∧
    (∀ (a : ℚ) (c : String), 250000 < a →
      selectPaymentRail "mpesa" a c = ⟨"mpesa_corporate", 100, false⟩) ∧
    selectPaymentRail "mpesa" 250000 "KES" = ⟨"mpesa_b2c", 3750, true⟩ ∧
    selectPaymentRail "mpesa" 250001 "KES" = ⟨"mpesa_corporate", 100, false⟩ ∧
    (∀ a : ℚ, a < 999999 → selectPaymentRail "bank" a "KES" = ⟨"pesalink", 50, true⟩) ∧
    (∀ (a : ℚ) (c : String), c ≠ "KES" ∨ 999999 ≤ a →
      selectPaymentRail "bank" a c = ⟨"rtgs", 150, false⟩) ∧
    (∀ (t : String) (a : ℚ) (c : String), t ≠ "wallet" → t ≠ "mpesa" → t ≠ "bank" →
      selectPaymentRail t a c = ⟨"unknown", 0, false⟩) := by
  refine ⟨fun a c => by simp [selectPaymentRail],
    fun a c h => by simp [selectPaymentRail, h],
    fun a c h => by simp [selectPaymentRail, h.not_le],
    by simp [selectPaymentRail]; norm_num,
    by simp [selectPaymentRail]; norm_num,
    fun a h => by simp [selectPaymentRail, h],
    fun a c h => ?_,
    fun t a c h1 h2 h3 => by simp [selectPaymentRail, h1, h2, h3]⟩
  rcases h with h | h
  · simp [selectPaymentRail, h]
  · simp [selectPaymentRail, h.not_lt]

/-- Witness for the rail-selection theorem on the parametric branches. -/
theorem selectPaymentRail_spec_witness :
    selectPaymentRail "mpesa" 200000 "KES" = ⟨"mpesa_b2c", 3000, true⟩ ∧
    selectPaymentRail "bank" 500 "KES" = ⟨"pesalink", 50, true⟩ ∧
    selectPaymentRail "bank" 500 "USD" = ⟨"rtgs", 150, false⟩ ∧
    selectPaymentRail "card" 500 "KES" = ⟨"unknown", 0, false⟩ := by
  have h1 := selectPaymentRail_spec.2.1 200000 "KES" (by norm_num)
  have h2 := selectPaymentRail_spec.2.2.2.2.2.1 500 (by norm_num)
  have h3 := selectPaymentRail_spec.2.2.2.2.2.2.1 500 "USD" (Or.inl (by simp))
  have h4 := selectPaymentRail_spec.2.2.2.2.2.2.2 "card" 500 "KES"
    (by simp) (by simp) (by simp)
  norm_num at h1
  exact ⟨h1, h2, h3, h4⟩

/-- Claim C7: when the provider call fails after the optimistic debit,
`createPayout` marks the transaction `failed` and credits the full deducted
`amount + fee` back, so the source wallet's balances are exactly as before
the payout. -/
theorem payout_failure_restores_wallet :
    ∀ (w : Balances) (destType currency msg : String) (amount : ℚ),
      destType = "mpesa" ∨ destType = "bank" ∨ destType = "wallet" →
      hasSufficientFunds w (amount + (selectPaymentRail destType amount currency).fee) false =
        true →
      payoutFailureReport (createPayoutFlow w destType amount currency (.error msg)) =
        some (w, .failed) := by
  intro w destType currency msg amount hdest hsuff
  have havail :
      amount + (selectPaymentRail destType amount currency).fee ≤ w.available := by
    simpa [hasSufficientFunds] using hsuff
  rcases hdest with rfl | rfl | rfl <;>
  · cases w with
    | mk av lk pd =>
      simp only [hasSufficientFunds, ge_iff_le, decide_eq_true_eq] at hsuff
      simp [createPayoutFlow, hasSufficientFunds, hsuff, deductFunds, addFunds,
        saveChange, applyChange, touchesFees, preSaveHook, payoutFailureReport,
        if_neg (not_lt.mpr havail)]

/-- Witness for the payout compensating-credit theorem. -/
theorem payout_failure_restores_wallet_witness :
    payoutFailureReport
        (createPayoutFlow ⟨100, 0, 0⟩ "mpesa" 10 "KES" (.error "provider down")) =
      some (⟨100, 0, 0⟩, .failed) :=
  payout_failure_restores_wallet ⟨100, 0, 0⟩ "mpesa" "KES" "provider down" 10 (Or.inl rfl)
    (by norm_num +decide [hasSufficientFunds, selectPaymentRail])

/-- Claim C8: contracts of the five ledger primitives.  `lockFunds` succeeds
exactly when `available ≥ amount` and moves the amount into `locked`, failing
with the insufficient-funds error otherwise; `unlockFunds` succeeds exactly
when `locked ≥ amount` and moves the amount back, failing with the
insufficient-locked-funds error otherwise; `releaseFunds` is the same
operation as `unlockFunds`; `deductFunds` succeeds exactly when
`available ≥ amount` and decreases only `available`; `addFunds` increases
`available` unconditionally; none of them changes `pending`. -/
theorem ledger_primitive_contracts :
    (∀ (w : Balances) (a : ℚ),
      (a ≤ w.available → lockFunds w a = .ok ⟨w.available - a, w.locked + a, w.pending⟩) ∧
      (w.available < a → lockFunds w a = .error .insufficientFunds)) ∧
    (∀ (w : Balances) (a : ℚ),
      (a ≤ w.locked → unlockFunds w a = .ok ⟨w.available + a, w.locked - a, w.pending⟩) ∧
      (w.locked < a → unlockFunds w a = .error .insufficientLockedFunds)) ∧
    (∀ (w : Balances) (a : ℚ), releaseFunds w a = unlockFunds w a) ∧
    (∀ (w : Balances) (a : ℚ),
      (a ≤ w.available → deductFunds w a = .ok ⟨w.available - a, w.locked, w.pending⟩) ∧
      (w.available < a → deductFunds w a = .error .insufficientFunds)) ∧
    (∀ (w : Balances) (a : ℚ), 0 ≤ a →
      (addFunds w a).available = w.available + a ∧
        w.available ≤ (addFunds w a).available) ∧
    (∀ (w : Balances) (a : ℚ),
      (addFunds w a).pending = w.pending ∧ (addFunds w a).locked = w.locked ∧
      (∀ w2, lockFunds w a = .ok w2 → w2.pending = w.pending) ∧
      (∀ w2, unlockFunds w a = .ok w2 → w2.pending = w.pending) ∧
      (∀ w2, releaseFunds w a = .ok w2 → w2.pending = w.pending) ∧
      (∀ w2, deductFunds w a = .ok w2 → w2.pending = w.pending)) := by
  refine ⟨fun w a => ⟨fun h => ?_, fun h => ?_⟩,
    fun w a => ⟨fun h => ?_, fun h => ?_⟩,
    fun w a => rfl,
    fun w a => ⟨fun h => ?_, fun h => ?_⟩,
    fun w a h => by simp [addFunds, h],
    fun w a => ⟨rfl, rfl, fun w2 h => ?_, fun w2 h => ?_, fun w2 h => ?_, fun w2 h => ?_⟩⟩
  · simp [lockFunds, hasSufficientFunds, h]
  · simp [lockFunds, hasSufficientFunds, h.not_le]
  · simp [unlockFunds, not_lt.mpr h]
  · simp [unlockFunds, h]
  · simp [deductFunds, not_lt.mpr h]
  · simp [deductFunds, h]
  · unfold lockFunds at h
    split at h <;>
      first
        | exact Except.noConfusion h
        | exact (congrArg Balances.pending (Except.ok.inj h)).symm
  · unfold unlockFunds at h
    split at h <;>
      first
        | exact Except.noConfusion h
        | exact (congrArg Balances.pending (Except.ok.inj h)).symm
  · unfold releaseFunds at h
    split at h <;>
      first
        | exact Except.noConfusion h
        | exact (congrArg Balances.pending (Except.ok.inj h)).symm
  · unfold deductFunds at h
    split at h <;>
      first
        | exact Except.noConfusion h
        | exact (congrArg Balances.pending (Except.ok.inj h)).symm

/-- Witness for the ledger-primitive contracts at concrete balances. -/
theorem ledger_primitive_contracts_witness :
    lockFunds ⟨100, 5, 7⟩ 30 = .ok ⟨70, 35, 7⟩ ∧
    unlockFunds ⟨100, 5, 7⟩ 30 = .error .insufficientLockedFunds ∧
    deductFunds ⟨100, 5, 7⟩ 200 = .error .insufficientFunds ∧
    (addFunds ⟨100, 5, 7⟩ 3).available = 100 + 3 := by
  have h1 := (ledger_primitive_contracts.1 ⟨100, 5, 7⟩ 30).1 (by norm_num)
  have h2 := (ledger_primitive_contracts.2.1 ⟨100, 5, 7⟩ 30).2 (by norm_num)
  have h3 := (ledger_primitive_contracts.2.2.2.1 ⟨100, 5, 7⟩ 200).2 (by norm_num)
  have h4 := (ledger_primitive_contracts.2.2.2.2.1 ⟨100, 5, 7⟩ 3 (by norm_num)).1
  norm_num at h1
  exact ⟨h1, h2, h3, h4⟩

/-- Replacing the attempt outcomes by ones that agree on the attempts the
loop can reach (the first `maxRetries`) does not change the result. -/
lemma sendWebhookLoop_congr (f g : ℕ → Bool)
    (h : ∀ n, n < webhookMaxRetries → f n = g n) :
    ∀ (fuel attempt : ℕ) (waits : List ℕ),
      sendWebhookLoop f fuel attempt waits = sendWebhookLoop g fuel attempt waits := by
  intro fuel
  induction fuel with
  | zero => intro attempt waits; rfl
  | succ fuel ih =>
    intro attempt waits
    by_cases hlt : attempt < webhookMaxRetries
    · simp only [sendWebhookLoop, if_pos hlt, h attempt hlt, ih]
    · simp only [sendWebhookLoop, if_neg hlt]

/-- Claim C9: an endpoint that fails twice and succeeds on the third attempt
is reported delivered with `attempt = 3` after backoff waits of 5s and 15s;
an endpoint that always fails is reported failed with exactly 3 total
attempts and the same two waits (none after the final failure); and the
result never depends on the outcome of an attempt beyond the third — there
is no fourth attempt. -/
theorem webhook_retry_behaviour :
    sendWebhook (fun n => decide (2 ≤ n)) = ⟨true, 3, [5000, 15000]⟩ ∧
    sendWebhook (fun _ => false) = ⟨false, 3, [5000, 15000]⟩ ∧
    (∀ f g : ℕ → Bool, (∀ n, n < webhookMaxRetries → f n = g n) →
      sendWebhook f = sendWebhook g) := by
  refine ⟨by decide, by decide, fun f g h => ?_⟩
  exact sendWebhookLoop_congr f g h _ _ _

/-- Witness for the webhook no-fourth-attempt part: two outcome schedules
that differ only from the fourth attempt on give identical reports. -/
theorem webhook_retry_behaviour_witness :
    sendWebhook (fun _ => false) = sendWebhook (fun n => decide (3 ≤ n)) :=
  webhook_retry_behaviour.2.2 _ _ (by decide)

/-- Inversion for a successful `Option` bind. -/
lemma bind_some_eq {α β : Type} {x : Option α} {f : α → Option β} {b : β}
    (h : x.bind f = some b) : ∃ a, x = some a ∧ f a = some b := by
  cases x with
  | none => exact Option.noConfusion h
  | some a => exact ⟨a, rfl, h⟩

/-- Inversion for a successful `Except.toOption`. -/
lemma toOption_some {ε α : Type} {x : Except ε α} {a : α}
    (h : x.toOption = some a) : x = .ok a := by
  cases x with
  | error e => exact Option.noConfusion h
  | ok v => rw [Option.some.inj h]

/-- Updating one position of a list preserves a pointwise property. -/
lemma forall_mem_set {α : Type} {P : α → Prop} {l : List α} {i : ℕ} {x : α}
    (hl : ∀ a ∈ l, P a) (hx : P x) : ∀ a ∈ l.set i x, P a := by
  intro a ha
  rcases List.mem_or_eq_of_mem_set ha with h | rfl
  · exact hl a h
  · exact hx

/-- Appending one element preserves a pointwise property. -/
lemma forall_mem_append_singleton {α : Type} {P : α → Prop} {l : List α} {x : α}
    (hl : ∀ a ∈ l, P a) (hx : P x) : ∀ a ∈ l ++ [x], P a := by
  intro a ha
  rcases List.mem_append.mp ha with h | h
  · exact hl a h
  · obtain rfl := List.mem_singleton.mp h
    exact hx

/-- `lockFunds` keeps all balances non-negative. -/
lemma lockFunds_ok_nonneg {w w2 : Balances} {a : ℚ} (ha : 0 ≤ a) (hw : BalNonneg w)
    (h : lockFunds w a = .ok w2) : BalNonneg w2 := by
  unfold lockFunds at h
  split at h
  · rename_i hg
    simp [hasSufficientFunds] at hg
    obtain rfl := (Except.ok.inj h).symm
    exact ⟨by simp; linarith, by simp; linarith [hw.2.1], hw.2.2⟩
  · exact Except.noConfusion h

/-- `unlockFunds` keeps all balances non-negative. -/
lemma unlockFunds_ok_nonneg {w w2 : Balances} {a : ℚ} (ha : 0 ≤ a) (hw : BalNonneg w)
    (h : unlockFunds w a = .ok w2) : BalNonneg w2 := by
  unfold unlockFunds at h
  split at h
  · exact Except.noConfusion h
  · rename_i hg
    rw [not_lt] at hg
    obtain rfl := (Except.ok.inj h).symm
    exact ⟨by simp; linarith [hw.1], by simp; linarith, hw.2.2⟩

/-- `releaseFunds` keeps all balances non-negative. -/
lemma releaseFunds_ok_nonneg {w w2 : Balances} {a : ℚ} (ha : 0 ≤ a) (hw : BalNonneg w)
    (h : releaseFunds w a = .ok w2) : BalNonneg w2 :=
  unlockFunds_ok_nonneg ha hw h

/-- `deductFunds` keeps all balances non-negative. -/
lemma deductFunds_ok_nonneg {w w2 : Balances} {a : ℚ} (ha : 0 ≤ a) (hw : BalNonneg w)
    (h : deductFunds w a = .ok w2) : BalNonneg w2 := by
  unfold deductFunds at h
  split at h
  · exact Except.noConfusion h
  · rename_i hg
    rw [not_lt] at hg
    obtain rfl := (Except.ok.inj h).symm
    exact ⟨by simp; linarith, hw.2.1, hw.2.2⟩

/-- `addFunds` with a non-negative amount keeps all balances non-negative. -/
lemma addFunds_nonneg {w : Balances} {a : ℚ} (ha : 0 ≤ a) (hw : BalNonneg w) :
    BalNonneg (addFunds w a) :=
  ⟨by simp [addFunds]; linarith [hw.1], hw.2.1, hw.2.2⟩

lemma createEscrowFlow_ok {pw pw2 : Balances} {a : ℚ} {conds : List CondInput} {d : Bool}
    {esc : Escrow} {txn : Txn}
    (h : createEscrowFlow pw a conds d = .ok (pw2, esc, txn)) :
    lockFunds pw a = .ok pw2 ∧ esc.amount = a ∧ esc.status = .active ∧
      esc.release_settings = ⟨d, d, true⟩ ∧ txn.amount = a ∧
      txn.net_amount = a - a * (2 / 100) := by
  rw [createEscrowFlow] at h
  split at h
  · exact Except.noConfusion h
  · split at h
    · exact Except.noConfusion h
    · rename_i pw1 hlock
      simp only [Except.ok.injEq, Prod.mk.injEq] at h
      obtain ⟨rfl, rfl, rfl⟩ := h
      refine ⟨hlock, rfl, rfl, rfl, rfl, ?_⟩
      simp [persistNew, preSaveHook, saveChange, applyChange, touchesFees]

lemma fulfillCondition_ok {esc esc2 : Escrow} {c : ℕ} {fb : String}
    (h : esc.fulfillCondition c fb = .ok esc2) :
    esc2.amount = esc.amount ∧ esc2.release_settings = esc.release_settings := by
  unfold Escrow.fulfillCondition at h
  split at h
  · exact Except.noConfusion h
  · simp only [Escrow.release] at h
    split at h <;>
    · obtain rfl := Except.ok.inj h
      simp

lemma fulfillConditionFlow_ok {esc esc2 : Escrow} {c : ℕ} {fb : String}
    (h : fulfillConditionFlow esc c fb = .ok esc2) :
    esc2.amount = esc.amount ∧ esc2.release_settings = esc.release_settings := by
  unfold fulfillConditionFlow at h
  split at h
  · exact Except.noConfusion h
  · cases hfc : esc.fulfillCondition c fb with
    | error e =>
      rw [hfc] at h
      simp only [Except.mapError] at h
      exact Except.noConfusion h
    | ok e2 =>
      rw [hfc] at h
      simp only [Except.mapError] at h
      obtain rfl := Except.ok.inj h
      exact fulfillCondition_ok hfc

lemma releaseEscrowFlow_ok {esc esc2 : Escrow} {pw yw pw2 yw2 : Balances} {tx rel : Txn}
    (h : releaseEscrowFlow esc pw yw tx = .ok (esc2, pw2, yw2, rel)) :
    esc2 = esc.release ∧
      (∃ pw1, unlockFunds pw esc.amount = .ok pw1 ∧ deductFunds pw1 esc.amount = .ok pw2) ∧
      yw2 = addFunds yw tx.net_amount := by
  rw [releaseEscrowFlow] at h
  split at h
  · exact Except.noConfusion h
  · split at h
    · exact Except.noConfusion h
    · simp only [Escrow.release] at h ⊢
      split at h
      · exact Except.noConfusion h
      · rename_i pw1 hunlock
        split at h
        · exact Except.noConfusion h
        · rename_i pwd hdeduct
          simp only [Except.ok.injEq, Prod.mk.injEq] at h
          obtain ⟨rfl, rfl, rfl, rfl⟩ := h
          exact ⟨rfl, ⟨pw1, hunlock, hdeduct⟩, rfl⟩

lemma refundEscrowFlow_ok {esc esc2 : Escrow} {pw pw2 : Balances} {tx ref : Txn}
    (h : refundEscrowFlow esc pw tx = .ok (esc2, pw2, ref)) :
    esc2 = esc.refund ∧
      ∃ pw1, unlockFunds pw esc.amount = .ok pw1 ∧ pw2 = addFunds pw1 tx.amount := by
  rw [refundEscrowFlow] at h
  split at h
  · exact Except.noConfusion h
  · simp only [Escrow.refund] at h ⊢
    split at h
    · exact Except.noConfusion h
    · rename_i pw1 hunlock
      simp only [Except.ok.injEq, Prod.mk.injEq] at h
      obtain ⟨rfl, rfl, rfl⟩ := h
      exact ⟨rfl, ⟨pw1, hunlock, rfl⟩⟩

lemma transferFundsFlow_ok {src dst src2 dst2 : Balances} {a : ℚ} {txn : Txn}
    (h : transferFundsFlow src dst a = .ok (src2, dst2, txn)) :
    deductFunds src (a + a * (1 / 200)) = .ok src2 ∧ dst2 = addFunds dst a := by
  rw [transferFundsFlow] at h
  split at h
  · exact Except.noConfusion h
  · simp only [persistNew] at h
    split at h
    · exact Except.noConfusion h
    · rename_i sd hded
      simp only [Except.ok.injEq, Prod.mk.injEq] at h
      obtain ⟨rfl, rfl, rfl⟩ := h
      exact ⟨hded, rfl⟩

lemma withdrawFlow_ok {w w2 : Balances} {a : ℚ} {txn : Txn}
    (h : withdrawFlow w a = .ok (w2, txn)) :
    deductFunds w (a + (a * (3 / 200) + 0)) = .ok w2 := by
  rw [withdrawFlow] at h
  split at h
  · exact Except.noConfusion h
  · simp only [persistNew] at h
    split at h
    · exact Except.noConfusion h
    · rename_i wd hded
      simp only [Except.ok.injEq, Prod.mk.injEq] at h
      obtain ⟨rfl, rfl⟩ := h
      exact hded

lemma fundWalletFlow_wallet {w : Balances} {a : ℚ} {p : Except String Bool} :
    (fundWalletFlow w a p).1 = w ∨ (fundWalletFlow w a p).1 = addFunds w a := by
  rcases p with m | b
  · left; rfl
  · cases b
    · left; rfl
    · right; rfl

lemma selectPaymentRail_fee_nonneg (t : String) {a : ℚ} (c : String) (ha : 0 ≤ a) :
    0 ≤ (selectPaymentRail t a c).fee := by
  rw [selectPaymentRail]
  split_ifs <;> simp <;> positivity

lemma createPayoutFlow_wallet_nonneg {w : Balances} {t c : String} {a : ℚ}
    {p : Except String TxnStatus} (ha : 0 ≤ a) (hw : BalNonneg w) :
    (∀ w2 tx, createPayoutFlow w t a c p = .providerFailed w2 tx → BalNonneg w2) ∧
    (∀ w2 tx, createPayoutFlow w t a c p = .ok w2 tx → BalNonneg w2) := by
  have htot : 0 ≤ a + (selectPaymentRail t a c).fee := by
    have := selectPaymentRail_fee_nonneg t c ha
    linarith
  constructor <;>
  · intro w2 tx h
    rw [createPayoutFlow] at h
    simp only [persistNew] at h
    by_cases h1 : (!(t = "mpesa" || t = "bank" || t = "wallet")) = true
    · rw [if_pos h1] at h
      exact PayoutResult.noConfusion h
    · rw [if_neg h1] at h
      by_cases h2 : (!hasSufficientFunds w (a + (selectPaymentRail t a c).fee) false) = true
      · rw [if_pos h2] at h
        exact PayoutResult.noConfusion h
      · rw [if_neg h2] at h
        cases hded : deductFunds w (a + (selectPaymentRail t a c).fee) with
        | error e =>
          rw [hded] at h
          exact PayoutResult.noConfusion h
        | ok wd =>
          rw [hded] at h
          have hwd : BalNonneg wd := deductFunds_ok_nonneg htot hw hded
          cases p with
          | error m =>
            first
              | (simp only [PayoutResult.providerFailed.injEq] at h
                 obtain ⟨rfl, rfl⟩ := h
                 exact addFunds_nonneg htot hwd)
              | exact PayoutResult.noConfusion h
          | ok st =>
            first
              | (simp only [PayoutResult.ok.injEq] at h
                 obtain ⟨rfl, rfl⟩ := h
                 exact hwd)
              | exact PayoutResult.noConfusion h

lemma stepOp_nonneg {s s2 : SysState} {op : Op} (hop : op.amountsNonneg)
    (hw : walletsNonneg s) (he : escrowRecsConsistent s)
    (h : stepOp s op = some s2) : walletsNonneg s2 ∧ escrowRecsConsistent s2 := by
  cases op with
  | lock i a =>
    rw [stepOp] at h
    obtain ⟨w, hwi, h⟩ := bind_some_eq h
    obtain ⟨w2, hl, h⟩ := bind_some_eq h
    obtain rfl := Option.some.inj h
    exact ⟨forall_mem_set hw
      (lockFunds_ok_nonneg hop (hw w (List.getElem?_mem hwi)) (toOption_some hl)), he⟩
  | unlock i a =>
    rw [stepOp] at h
    obtain ⟨w, hwi, h⟩ := bind_some_eq h
    obtain ⟨w2, hl, h⟩ := bind_some_eq h
    obtain rfl := Option.some.inj h
    exact ⟨forall_mem_set hw
      (unlockFunds_ok_nonneg hop (hw w (List.getElem?_mem hwi)) (toOption_some hl)), he⟩
  | releaseF i a =>
    rw [stepOp] at h
    obtain ⟨w, hwi, h⟩ := bind_some_eq h
    obtain ⟨w2, hl, h⟩ := bind_some_eq h
    obtain rfl := Option.some.inj h
    exact ⟨forall_mem_set hw
      (releaseFunds_ok_nonneg hop (hw w (List.getElem?_mem hwi)) (toOption_some hl)), he⟩
  | deduct i a =>
    rw [stepOp] at h
    obtain ⟨w, hwi, h⟩ := bind_some_eq h
    obtain ⟨w2, hl, h⟩ := bind_some_eq h
    obtain rfl := Option.some.inj h
    exact ⟨forall_mem_set hw
      (deductFunds_ok_nonneg hop (hw w (List.getElem?_mem hwi)) (toOption_some hl)), he⟩
  | add i a =>
    rw [stepOp] at h
    obtain ⟨w, hwi, h⟩ := bind_some_eq h
    obtain rfl := Option.some.inj h
    exact ⟨forall_mem_set hw
      (addFunds_nonneg hop (hw w (List.getElem?_mem hwi))), he⟩
  | transfer src dst a =>
    rw [stepOp] at h
    split at h
    · exact Option.noConfusion h
    · obtain ⟨sw, hws, h⟩ := bind_some_eq h
      obtain ⟨dw, hwd, h⟩ := bind_some_eq h
      obtain ⟨res, hf, h⟩ := bind_some_eq h
      obtain ⟨sw2, dw2, txn⟩ := res
      obtain rfl := Option.some.inj h
      obtain ⟨hded, rfl⟩ := transferFundsFlow_ok (toOption_some hf)
      have ha : (0:ℚ) ≤ a := hop
      have htot : (0:ℚ) ≤ a + a * (1 / 200) := by linarith
      refine ⟨forall_mem_set (forall_mem_set hw ?_) ?_, he⟩
      · exact deductFunds_ok_nonneg htot (hw sw (List.getElem?_mem hws)) hded
      · exact addFunds_nonneg hop (hw dw (List.getElem?_mem hwd))
  | fund i a p =>
    rw [stepOp] at h
    obtain ⟨w, hwi, h⟩ := bind_some_eq h
    obtain rfl := Option.some.inj h
    have hwm : BalNonneg w := hw w (List.getElem?_mem hwi)
    refine ⟨forall_mem_set hw ?_, he⟩
    rcases fundWalletFlow_wallet (w := w) (a := a) (p := p) with hcase | hcase <;> rw [hcase]
    · exact hwm
    · exact addFunds_nonneg hop hwm
  | withdraw i a =>
    rw [stepOp] at h
    obtain ⟨w, hwi, h⟩ := bind_some_eq h
    obtain ⟨res, hf, h⟩ := bind_some_eq h
    obtain ⟨w2, txn⟩ := res
    obtain rfl := Option.some.inj h
    have hded := withdrawFlow_ok (toOption_some hf)
    have ha : (0:ℚ) ≤ a := hop
    have htot : (0:ℚ) ≤ a + (a * (3 / 200) + 0) := by linarith
    exact ⟨forall_mem_set hw
      (deductFunds_ok_nonneg htot (hw w (List.getElem?_mem hwi)) hded), he⟩
  | payout i t a c p =>
    rw [stepOp] at h
    obtain ⟨w, hwi, h⟩ := bind_some_eq h
    have hwm : BalNonneg w := hw w (List.getElem?_mem hwi)
    cases hp : createPayoutFlow w t a c p with
    | rejected e =>
      rw [hp] at h
      exact Option.noConfusion h
    | providerFailed w2 tx =>
      rw [hp] at h
      obtain rfl := Option.some.inj h
      exact ⟨forall_mem_set hw
        ((createPayoutFlow_wallet_nonneg hop hwm).1 w2 tx hp), he⟩
    | ok w2 tx =>
      rw [hp] at h
      obtain rfl := Option.some.inj h
      exact ⟨forall_mem_set hw
        ((createPayoutFlow_wallet_nonneg hop hwm).2 w2 tx hp), he⟩
  | escrowCreate payer payee a conds autoDate =>
    rw [stepOp] at h
    split at h
    · exact Option.noConfusion h
    · obtain ⟨pw, hwp, h⟩ := bind_some_eq h
      obtain ⟨yw, hwy, h⟩ := bind_some_eq h
      obtain ⟨res, hf, h⟩ := bind_some_eq h
      obtain ⟨pw2, esc, txn⟩ := res
      obtain rfl := Option.some.inj h
      obtain ⟨hlock, hamt, hst, hset, htamt, htnet⟩ := createEscrowFlow_ok (toOption_some hf)
      constructor
      · exact forall_mem_set hw
          (lockFunds_ok_nonneg hop (hw pw (List.getElem?_mem hwp)) hlock)
      · refine forall_mem_append_singleton he ?_
        refine ⟨?_, ?_, ?_⟩
        · rw [hamt]
          exact hop
        · rw [htamt, hamt]
        · rw [htnet, hamt]
  | escrowFulfill e c fb =>
    rw [stepOp] at h
    obtain ⟨er, her, h⟩ := bind_some_eq h
    obtain ⟨esc2, hf, h⟩ := bind_some_eq h
    obtain rfl := Option.some.inj h
    obtain ⟨hamt, hset⟩ := fulfillConditionFlow_ok (toOption_some hf)
    have hc := he er (List.getElem?_mem her)
    refine ⟨hw, forall_mem_set he ?_⟩
    exact ⟨by simp only [hamt]; exact hc.1, by simp only [hamt]; exact hc.2.1,
      by simp only [hamt]; exact hc.2.2⟩
  | escrowRelease e =>
    rw [stepOp] at h
    obtain ⟨er, her, h⟩ := bind_some_eq h
    split at h
    · exact Option.noConfusion h
    · obtain ⟨pw, hwp, h⟩ := bind_some_eq h
      obtain ⟨yw, hwy, h⟩ := bind_some_eq h
      obtain ⟨res, hf, h⟩ := bind_some_eq h
      obtain ⟨esc2, pw2, yw2, rel⟩ := res
      obtain rfl := Option.some.inj h
      obtain ⟨rfl, ⟨pw1, hunlock, hded⟩, rfl⟩ := releaseEscrowFlow_ok (toOption_some hf)
      have hcons := he er (List.getElem?_mem her)
      have hamt : (0:ℚ) ≤ er.esc.amount := hcons.1
      have hnet : (0:ℚ) ≤ er.holdTxn.net_amount := by
        rw [hcons.2.2]
        linarith
      constructor
      · refine forall_mem_set (forall_mem_set hw ?_) ?_
        · exact deductFunds_ok_nonneg hamt
            (unlockFunds_ok_nonneg hamt (hw pw (List.getElem?_mem hwp)) hunlock) hded
        · exact addFunds_nonneg hnet (hw yw (List.getElem?_mem hwy))
      · refine forall_mem_set he ?_
        exact ⟨hcons.1, hcons.2.1, hcons.2.2⟩
  | escrowRefund e =>
    rw [stepOp] at h
    obtain ⟨er, her, h⟩ := bind_some_eq h
    obtain ⟨pw, hwp, h⟩ := bind_some_eq h
    obtain ⟨res, hf, h⟩ := bind_some_eq h
    obtain ⟨esc2, pw2, ref⟩ := res
    obtain rfl := Option.some.inj h
    obtain ⟨rfl, ⟨pw1, hunlock, rfl⟩⟩ := refundEscrowFlow_ok (toOption_some hf)
    have hcons := he er (List.getElem?_mem her)
    have hamt : (0:ℚ) ≤ er.esc.amount := hcons.1
    have htamt : (0:ℚ) ≤ er.holdTxn.amount := by
      rw [hcons.2.1]
      exact hamt
    constructor
    · refine forall_mem_set hw ?_
      exact addFunds_nonneg htamt
        (unlockFunds_ok_nonneg hamt (hw pw (List.getElem?_mem hwp)) hunlock)
    · refine forall_mem_set he ?_
      exact ⟨hcons.1, hcons.2.1, hcons.2.2⟩

lemma stepOp_requireAll {s s2 : SysState} {op : Op}
    (hr : escrowsRequireAll s) (h : stepOp s op = some s2) : escrowsRequireAll s2 := by
  cases op with
  | lock i a =>
    rw [stepOp] at h
    obtain ⟨w, hwi, h⟩ := bind_some_eq h
    obtain ⟨w2, hl, h⟩ := bind_some_eq h
    obtain rfl := Option.some.inj h
    exact hr
  | unlock i a =>
    rw [stepOp] at h
    obtain ⟨w, hwi, h⟩ := bind_some_eq h
    obtain ⟨w2, hl, h⟩ := bind_some_eq h
    obtain rfl := Option.some.inj h
    exact hr
  | releaseF i a =>
    rw [stepOp] at h
    obtain ⟨w, hwi, h⟩ := bind_some_eq h
    obtain ⟨w2, hl, h⟩ := bind_some_eq h
    obtain rfl := Option.some.inj h
    exact hr
  | deduct i a =>
    rw [stepOp] at h
    obtain ⟨w, hwi, h⟩ := bind_some_eq h
    obtain ⟨w2, hl, h⟩ := bind_some_eq h
    obtain rfl := Option.some.inj h
    exact hr
  | add i a =>
    rw [stepOp] at h
    obtain ⟨w, hwi, h⟩ := bind_some_eq h
    obtain rfl := Option.some.inj h
    exact hr
  | transfer src dst a =>
    rw [stepOp] at h
    split at h
    · exact Option.noConfusion h
    · obtain ⟨sw, hws, h⟩ := bind_some_eq h
      obtain ⟨dw, hwd, h⟩ := bind_some_eq h
      obtain ⟨res, hf, h⟩ := bind_some_eq h
      obtain ⟨sw2, dw2, txn⟩ := res
      obtain rfl := Option.some.inj h
      exact hr
  | fund i a p =>
    rw [stepOp] at h
    obtain ⟨w, hwi, h⟩ := bind_some_eq h
    obtain rfl := Option.some.inj h
    exact hr
  | withdraw i a =>
    rw [stepOp] at h
    obtain ⟨w, hwi, h⟩ := bind_some_eq h
    obtain ⟨res, hf, h⟩ := bind_some_eq h
    obtain ⟨w2, txn⟩ := res
    obtain rfl := Option.some.inj h
    exact hr
  | payout i t a c p =>
    rw [stepOp] at h
    obtain ⟨w, hwi, h⟩ := bind_some_eq h
    cases hp : createPayoutFlow w t a c p with
    | rejected e =>
      rw [hp] at h
      exact Option.noConfusion h
    | providerFailed w2 tx =>
      rw [hp] at h
      obtain rfl := Option.some.inj h
      exact hr
    | ok w2 tx =>
      rw [hp] at h
      obtain rfl := Option.some.inj h
      exact hr
  | escrowCreate payer payee a conds autoDate =>
    rw [stepOp] at h
    split at h
    · exact Option.noConfusion h
    · obtain ⟨pw, hwp, h⟩ := bind_some_eq h
      obtain ⟨yw, hwy, h⟩ := bind_some_eq h
      obtain ⟨res, hf, h⟩ := bind_some_eq h
      obtain ⟨pw2, esc, txn⟩ := res
      obtain rfl := Option.some.inj h
      obtain ⟨_, _, _, hset, _, _⟩ := createEscrowFlow_ok (toOption_some hf)
      refine forall_mem_append_singleton hr ?_
      show esc.release_settings.require_all_conditions = true
      rw [hset]
  | escrowFulfill e c fb =>
    rw [stepOp] at h
    obtain ⟨er, her, h⟩ := bind_some_eq h
    obtain ⟨esc2, hf, h⟩ := bind_some_eq h
    obtain rfl := Option.some.inj h
    obtain ⟨_, hset⟩ := fulfillConditionFlow_ok (toOption_some hf)
    refine forall_mem_set hr ?_
    show esc2.release_settings.require_all_conditions = true
    rw [hset]
    exact hr er (List.getElem?_mem her)
  | escrowRelease e =>
    rw [stepOp] at h
    obtain ⟨er, her, h⟩ := bind_some_eq h
    split at h
    · exact Option.noConfusion h
    · obtain ⟨pw, hwp, h⟩ := bind_some_eq h
      obtain ⟨yw, hwy, h⟩ := bind_some_eq h
      obtain ⟨res, hf, h⟩ := bind_some_eq h
      obtain ⟨esc2, pw2, yw2, rel⟩ := res
      obtain rfl := Option.some.inj h
      obtain ⟨rfl, _, _⟩ := releaseEscrowFlow_ok (toOption_some hf)
      refine forall_mem_set hr ?_
      exact hr er (List.getElem?_mem her)
  | escrowRefund e =>
    rw [stepOp] at h
    obtain ⟨er, her, h⟩ := bind_some_eq h
    obtain ⟨pw, hwp, h⟩ := bind_some_eq h
    obtain ⟨res, hf, h⟩ := bind_some_eq h
    obtain ⟨esc2, pw2, ref⟩ := res
    obtain rfl := Option.some.inj h
    obtain ⟨rfl, _⟩ := refundEscrowFlow_ok (toOption_some hf)
    refine forall_mem_set hr ?_
    exact hr er (List.getElem?_mem her)

lemma runOps_nonneg {ops : List Op} :
    ∀ {s s2 : SysState}, (∀ op ∈ ops, op.amountsNonneg) →
      walletsNonneg s → escrowRecsConsistent s → runOps s ops = some s2 →
      walletsNonneg s2 ∧ escrowRecsConsistent s2 := by
  induction ops with
  | nil =>
    intro s s2 _ hw he h
    obtain rfl := Option.some.inj h
    exact ⟨hw, he⟩
  | cons op rest ih =>
    intro s s2 hops hw he h
    rw [runOps] at h
    cases hs : stepOp s op with
    | none =>
      rw [hs] at h
      exact Option.noConfusion h
    | some s1 =>
      rw [hs] at h
      obtain ⟨hw1, he1⟩ := stepOp_nonneg (hops op (List.mem_cons_self op rest)) hw he hs
      exact ih (fun o ho => hops o (List.mem_cons_of_mem op ho)) hw1 he1 h

lemma runOps_requireAll {ops : List Op} :
    ∀ {s s2 : SysState}, escrowsRequireAll s → runOps s ops = some s2 →
      escrowsRequireAll s2 := by
  induction ops with
  | nil =>
    intro s s2 hr h
    obtain rfl := Option.some.inj h
    exact hr
  | cons op rest ih =>
    intro s s2 hr h
    rw [runOps] at h
    cases hs : stepOp s op with
    | none =>
      rw [hs] at h
      exact Option.noConfusion h
    | some s1 =>
      rw [hs] at h
      exact ih (stepOp_requireAll hr hs) h

/-- Claim C4: starting from any wallets with non-negative balances (and
consistent escrow records, as every escrow created through the interface is),
every succeeding sequence of ledger-primitive, wallet, escrow and payout
operations with non-negative amounts leaves every wallet's `available`,
`locked` and `pending` non-negative. -/
theorem wallet_balances_never_negative :
    ∀ (ops : List Op) (s0 s1 : SysState),
      (∀ op ∈ ops, op.amountsNonneg) → walletsNonneg s0 → escrowRecsConsistent s0 →
      runOps s0 ops = some s1 → walletsNonneg s1 :=
  fun _ _ _ hops hw he h => (runOps_nonneg hops hw he h).1

/-- Witness for non-negativity on a concrete two-step run. -/
theorem wallet_balances_never_negative_witness :
    walletsNonneg ⟨[⟨50, 120, 0⟩], []⟩ :=
  wallet_balances_never_negative [.lock 0 100] ⟨[⟨150, 20, 0⟩], []⟩ ⟨[⟨50, 120, 0⟩], []⟩
    (by
      intro op hop
      rw [List.mem_singleton] at hop
      subst hop
      show (0:ℚ) ≤ 100
      norm_num)
    (by
      intro w hw
      rw [List.mem_singleton] at hw
      subst hw
      exact ⟨by norm_num, by norm_num, le_refl 0⟩)
    (fun er h => absurd h (List.not_mem_nil er))
    (by
      norm_num +decide [runOps, stepOp, lockFunds, hasSufficientFunds, Except.toOption,
        Option.bind, List.set])

/-- Claim C10: every escrow created through the public `createEscrow`
interface has `release_settings.require_all_conditions = true` and
`auto_release` set exactly when an `auto_release_date` was supplied; the
`require_all_conditions = true` property is preserved by every reachable
operation sequence; and for such escrows `requestRelease` cascades into
`release()` exactly when all conditions are fulfilled — the documented
any-single-fulfillment branch (taken when `require_all_conditions` is false)
is unreachable through the public interface. -/
theorem public_escrows_require_all_conditions :
    (∀ (pw pw2 : Balances) (a : ℚ) (conds : List CondInput) (d : Bool) (esc : Escrow)
        (txn : Txn), createEscrowFlow pw a conds d = .ok (pw2, esc, txn) →
      esc.release_settings.require_all_conditions = true ∧
        esc.release_settings.auto_release = d) ∧
    (∀ (s0 : SysState) (ops : List Op) (s1 : SysState),
      escrowsRequireAll s0 → runOps s0 ops = some s1 → escrowsRequireAll s1) ∧
    (∀ e : Escrow, e.release_settings.require_all_conditions = true →
      (allConditionsFulfilled e = true → e.requestRelease = e.release) ∧
      (allConditionsFulfilled e = false → e.requestRelease = e)) := by
  refine ⟨?_, ?_, ?_⟩
  · intro pw pw2 a conds d esc txn h
    obtain ⟨_, _, _, hset, _, _⟩ := createEscrowFlow_ok h
    rw [hset]
    exact ⟨rfl, rfl⟩
  · intro s0 ops s1 hr h
    exact runOps_requireAll hr h
  · intro e hreq
    constructor
    · intro hall
      simp [Escrow.requestRelease, hall]
    · intro hall
      simp [Escrow.requestRelease, hall, hreq]

/-- Witness for the `requestRelease` consequence at a concrete escrow with
all (zero) conditions fulfilled. -/
theorem public_escrows_require_all_conditions_witness :
    Escrow.requestRelease ⟨0, .active, [], ⟨false, false, true⟩, ⟨0, 0, 0⟩⟩ =
      Escrow.release ⟨0, .active, [], ⟨false, false, true⟩, ⟨0, 0, 0⟩⟩ :=
  (public_escrows_require_all_conditions.2.2 _ rfl).1 rfl

end Swiftliners
